import Mathlib

/-!
Shallow embedding of the constraint/metadata attachment layer of the goa
design DSL (files dsl/validation.go and the Meta declaration file).

The DSL operations (Enum, Format, Pattern, Minimum, Maximum, MinLength,
MaxLength, Required, Meta) query an evaluation context for the current
declaration node, validate their arguments against the node's (possibly
still unresolved) type, and mutate the node's validation or metadata
record in place, reporting errors through a non-fatal error collector.

We model each operation as a pure function from the current node to the
updated node together with the list of errors it reports, in report
order.  "Evaluation continues" is inherent: every operation is a total
function.  External collaborators that live outside the translated
sources are taken as parameters (the type-compatibility test used by
Enum, the regular-expression compiler used by Pattern, the supported
format set used by Format) or modelled from the spec where noted.
Go float64 values are modelled as rationals: the concrete values the
development evaluates are small integers, on which the two agree.
-/

namespace GoaDSL

/-- Type kinds of the expr package (expr.Kind): the coarse classification
used by the compatibility checks of the validation DSL. -/
inductive Kind where
  | BooleanKind
  | IntKind
  | Int32Kind
  | Int64Kind
  | UIntKind
  | UInt32Kind
  | UInt64Kind
  | Float32Kind
  | Float64Kind
  | StringKind
  | BytesKind
  | AnyKind
  | ArrayKind
  | ObjectKind
  | MapKind
  | UserTypeKind
  | ResultTypeKind
deriving DecidableEq

/-- Name of the type of a given kind, as used in error reports
(a.typ.Name() in the source; names follow the expr package's
primitive type names). -/
def Kind.name : Kind → String
  | .BooleanKind => "boolean"
  | .IntKind => "int"
  | .Int32Kind => "int32"
  | .Int64Kind => "int64"
  | .UIntKind => "uint"
  | .UInt32Kind => "uint32"
  | .UInt64Kind => "uint64"
  | .Float32Kind => "float32"
  | .Float64Kind => "float64"
  | .StringKind => "string"
  | .BytesKind => "bytes"
  | .AnyKind => "any"
  | .ArrayKind => "array"
  | .ObjectKind => "object"
  | .MapKind => "map"
  | .UserTypeKind => "user type"
  | .ResultTypeKind => "result type"

/-- Go dynamic values (interface\x7b\x7d) as passed to the validation DSL.
The numeric constructors mirror the exact set of Go types the
Minimum/Maximum type switch distinguishes; note that plain uint is a
distinct constructor because the switch does not list it.  vMapVal and
vArrayVal are the DSL literal types expr.MapVal and expr.ArrayVal; vMap
and vSlice are the plain Go map and slice their conversions produce. -/
inductive Val where
  | vInt (n : Int)
  | vInt8 (n : Int)
  | vInt16 (n : Int)
  | vInt32 (n : Int)
  | vInt64 (n : Int)
  | vUInt (n : Nat)
  | vUInt8 (n : Nat)
  | vUInt16 (n : Nat)
  | vUInt32 (n : Nat)
  | vUInt64 (n : Nat)
  | vFloat32 (q : ℚ)
  | vFloat64 (q : ℚ)
  | vString (s : String)
  | vBool (b : Bool)
  | vNil
  | vMapVal (entries : List (Val × Val))
  | vArrayVal (elems : List Val)
  | vMap (entries : List (Val × Val))
  | vSlice (elems : List Val)

/-- Errors reported through the eval package's collector.  Each
constructor records the data interpolated into the corresponding
format string of the source. -/
inductive Err where
  | incompatibleValue (v : Val) (idx : Nat) (typeName : String)
  | invalidFormat (f : String)
  | incompatibleType (validation : String) (actual : String) (expected : String)
  | invalidPattern (p : String)
  | invalidNumber (v : Val)
  | incompatibleDSL

/-- Metadata record: expr.MetaExpr, a map from key to ordered list of
string values, modelled as an association list. -/
abbrev MetaMap := List (String × List String)

/-- The value sequence stored under a key (Go map indexing; a missing
key reads as the empty sequence). -/
def metaLookup : MetaMap → String → List String
  | [], _ => []
  | (k1, vs) :: rest, k => if k1 = k then vs else metaLookup rest k

/-- meta[name] = append(meta[name], value...): extend the binding for
the key in place, adding a fresh binding if the key is new. -/
def metaUpdate : MetaMap → String → List String → MetaMap
  | [], k, vs => [(k, vs)]
  | (k1, vs1) :: rest, k, vs =>
      if k1 = k then (k1, vs1 ++ vs) :: rest
      else (k1, vs1) :: metaUpdate rest k vs

/-- The appendMeta closure of Meta: allocate the map when nil, then
append the values to the sequence stored under the key. -/
def appendMeta (meta : Option MetaMap) (name : String) (value : List String) : MetaMap :=
  metaUpdate (meta.getD []) name value

/-- expr.ValidationExpr: the constraint record of an attribute.  Fields
mirror the Go struct; pointer-valued and slice-valued fields are
Options, plain string fields default to the empty string as in Go. -/
structure ValidationExpr where
  Values : Option (List Val) := none
  Format : String := ""
  Pattern : String := ""
  Minimum : Option ℚ := none
  Maximum : Option ℚ := none
  MinLength : Option Int := none
  MaxLength : Option Int := none
  Required : List String := []

/-- expr.AttributeExpr restricted to what the validation DSL touches:
the (possibly nil) type, represented by its kind, the lazily allocated
validation record, and the metadata record. -/
structure AttributeExpr where
  typ : Option Kind := none
  Validation : Option ValidationExpr := none
  Meta : Option MetaMap := none

/-- The polymorphic result of eval.Current(): the design node currently
open for configuration.  composite stands for any concrete type
implementing expr.CompositeExpr, exposing its inner attribute; method,
service and api carry only the metadata record the Meta operation
touches; noContext stands for any other context (including none). -/
inductive Node where
  | attr (a : AttributeExpr)
  | resultType (a : AttributeExpr)
  | composite (a : AttributeExpr)
  | method (m : Option MetaMap)
  | service (m : Option MetaMap)
  | api (m : Option MetaMap)
  | noContext

/-- if a.Validation == nil then allocate it; then apply the field
mutation.  This is the lazy-allocation idiom shared by every
constraint operation. -/
def setValidation (a : AttributeExpr) (g : ValidationExpr → ValidationExpr) : AttributeExpr :=
  { a with Validation := some (g (a.Validation.getD {})) }

/-- a.typ.Name() guarded by nilness of the type (only evaluated by the
source on the non-nil branch). -/
def typeName : Option Kind → String
  | none => ""
  | some k => k.name

/-- The type test of Minimum and Maximum: nil type passes, otherwise
the kind must be in the integer or floating family. -/
def numericOK : Option Kind → Bool
  | none => true
  | some k =>
      k = Kind.IntKind ∨ k = Kind.UIntKind ∨
      k = Kind.Int32Kind ∨ k = Kind.UInt32Kind ∨
      k = Kind.Int64Kind ∨ k = Kind.UInt64Kind ∨
      k = Kind.Float32Kind ∨ k = Kind.Float64Kind

/-- The type test of Format and Pattern: nil type passes, otherwise the
kind must be string. -/
def stringOK : Option Kind → Bool
  | none => true
  | some k => k = Kind.StringKind

/-- The type test of MinLength and MaxLength: nil type passes,
otherwise bytes, string, array or map. -/
def lengthOK : Option Kind → Bool
  | none => true
  | some k =>
      k = Kind.BytesKind ∨ k = Kind.StringKind ∨
      k = Kind.ArrayKind ∨ k = Kind.MapKind

/-- The type test of Required: nil type passes, otherwise the kind must
be object. -/
def objectOK : Option Kind → Bool
  | none => true
  | some k => k = Kind.ObjectKind

/-- Number of digits parsed as a base-10 natural. -/
def digitsToNat (ds : List Char) : Nat :=
  ds.foldl (fun a c => 10 * a + (c.toNat - 48)) 0

/-- Modelled from the spec: strconv.ParseFloat (bit size 64) on the
decimal grammar the spec describes: optional sign, integer digits,
optional fraction, optional exponent, at least one digit overall.
This core returns the exact value as a numerator together with a
power-of-ten denominator exponent, keeping the computation in integer
arithmetic. -/
def parseDecimalNum (s : String) : Option (Int × Nat) :=
  let cs := s.toList
  let signRest : Int × List Char :=
    match cs with
    | '-' :: rest => (-1, rest)
    | '+' :: rest => (1, rest)
    | _ => (1, cs)
  let intPart := signRest.2.takeWhile Char.isDigit
  let rest1 := signRest.2.dropWhile Char.isDigit
  let fracRest : List Char × List Char :=
    match rest1 with
    | '.' :: r => (r.takeWhile Char.isDigit, r.dropWhile Char.isDigit)
    | _ => ([], rest1)
  if intPart.isEmpty && fracRest.1.isEmpty then none
  else
    let num : Int :=
      signRest.1 * (digitsToNat intPart * 10 ^ fracRest.1.length + digitsToNat fracRest.1)
    let dexp : Nat := fracRest.1.length
    match fracRest.2 with
    | [] => some (num, dexp)
    | e :: r =>
      if e = 'e' ∨ e = 'E' then
        let esignRest : Int × List Char :=
          match r with
          | '-' :: r2 => (-1, r2)
          | '+' :: r2 => (1, r2)
          | _ => (1, r)
        let eds := esignRest.2.takeWhile Char.isDigit
        let rest3 := esignRest.2.dropWhile Char.isDigit
        if eds.isEmpty ∨ !rest3.isEmpty then none
        else if esignRest.1 ≥ 0 then some (num * 10 ^ digitsToNat eds, dexp)
        else some (num, dexp + digitsToNat eds)
      else none

/-- The parsed decimal value as an exact rational (the concrete values
exercised in this development are small integers, on which the
rational model and float64 agree). -/
def parseDecimal (s : String) : Option ℚ :=
  (parseDecimalNum s).map fun p => (p.1 : ℚ) / (10 : ℚ) ^ p.2

/-- The value arm of the Minimum/Maximum type switch: the listed fixed
numeric types convert to float64 (exactly, in this rational model), a
string goes through ParseFloat, everything else (including plain uint,
absent from the switch) is rejected. -/
def normalizeNumber : Val → Option ℚ
  | .vInt n => some (n : ℚ)
  | .vInt8 n => some (n : ℚ)
  | .vInt16 n => some (n : ℚ)
  | .vInt32 n => some (n : ℚ)
  | .vInt64 n => some (n : ℚ)
  | .vUInt8 n => some (n : ℚ)
  | .vUInt16 n => some (n : ℚ)
  | .vUInt32 n => some (n : ℚ)
  | .vUInt64 n => some (n : ℚ)
  | .vFloat32 q => some q
  | .vFloat64 q => some q
  | .vString s => parseDecimal s
  | _ => none

/-- True exactly for the values matched by the numeric cases of the
Minimum/Maximum type switch (not the string case, not the default). -/
def handledNumeric : Val → Bool
  | .vInt _ => true
  | .vInt8 _ => true
  | .vInt16 _ => true
  | .vInt32 _ => true
  | .vInt64 _ => true
  | .vUInt8 _ => true
  | .vUInt16 _ => true
  | .vUInt32 _ => true
  | .vUInt64 _ => true
  | .vFloat32 _ => true
  | .vFloat64 _ => true
  | _ => false

/-- True exactly for Go string values. -/
def isStringVal : Val → Bool
  | .vString _ => true
  | _ => false

/-- expr.MapVal.ToMap: converts the DSL map literal to a plain Go map.
External to the translated sources; modelled as the change of dynamic
type, which is what the storing switch of Enum observes. -/
def toMap (entries : List (Val × Val)) : Val := Val.vMap entries

/-- expr.ArrayVal.ToSlice: converts the DSL array literal to a plain Go
slice.  External to the translated sources; modelled as the change of
dynamic type, which is what the storing switch of Enum observes. -/
def toSlice (elems : List Val) : Val := Val.vSlice elems

/-- The storing switch of Enum: MapVal and ArrayVal values are
converted, every other value is stored as is. -/
def convVal : Val → Val
  | .vMapVal es => toMap es
  | .vArrayVal es => toSlice es
  | v => v

/-- The checking loop of Enum from index i on: when the type is known,
each value failing the compatibility test reports one error naming the
value, its index and the type, and the loop continues with the next
value. -/
def enumErrsFrom (compat : Kind → Val → Bool) (k : Kind) : Nat → List Val → List Err
  | _, [] => []
  | i, v :: rest =>
      (if compat k v then [] else [Err.incompatibleValue v i k.name]) ++
        enumErrsFrom compat k (i + 1) rest

/-- All errors reported by the checking loop of Enum: none when the
type is nil (the check is skipped), otherwise one per incompatible
value in index order. -/
def enumErrs (compat : Kind → Val → Bool) (t : Option Kind) (vals : List Val) : List Err :=
  match t with
  | none => []
  | some k => enumErrsFrom compat k 0 vals

/-- dsl.Enum: on an attribute target, check every value against the
attribute type when known (compat stands for the external
DataType.IsCompatible); when no value failed, store the converted
value list, replacing any previous one; otherwise store nothing.  On
any other target the operation silently does nothing. -/
def Enum (compat : Kind → Val → Bool) (vals : List Val) : Node → Node × List Err
  | .attr a =>
      let errs := enumErrs compat a.typ vals
      if errs.isEmpty then
        (.attr (setValidation a (fun v => { v with Values := some (vals.map convVal) })), [])
      else (.attr a, errs)
  | n => (n, [])

/-- dsl.Format: on an attribute target, report an invalid-format error
when the tag is not supported (supported stands for the external
IsSupportedValidationFormat), then — independently — store the tag
unless the type is known and non-string, in which case report an
incompatible-type error instead.  On any other target the operation
silently does nothing. -/
def Format (supported : String → Bool) (f : String) : Node → Node × List Err
  | .attr a =>
      let e1 : List Err := if supported f then [] else [Err.invalidFormat f]
      if stringOK a.typ then
        (.attr (setValidation a (fun v => { v with Format := f })), e1)
      else
        (.attr a, e1 ++ [Err.incompatibleType "format" (typeName a.typ) "a string"])
  | n => (n, [])

/-- dsl.Pattern: on an attribute target of string or unknown type,
compile the expression (compileOk stands for the external
regexp.Compile succeeding); store the pattern string on success,
report an invalid-pattern error and store nothing on failure.  A known
non-string type reports an incompatible-type error.  On any other
target the operation silently does nothing. -/
def Pattern (compileOk : String → Bool) (p : String) : Node → Node × List Err
  | .attr a =>
      if stringOK a.typ then
        if compileOk p then
          (.attr (setValidation a (fun v => { v with Pattern := p })), [])
        else (.attr a, [Err.invalidPattern p])
      else (.attr a, [Err.incompatibleType "pattern" (typeName a.typ) "a string"])
  | n => (n, [])

/-- dsl.Minimum: on an attribute target of numeric or unknown type,
normalize the value to a float64 and store it; an unparseable string
or an unhandled dynamic type reports an invalid-number error and
stores nothing.  A known non-numeric type reports an incompatible-type
error.  On any other target the operation silently does nothing. -/
def Minimum (val : Val) : Node → Node × List Err
  | .attr a =>
      if numericOK a.typ then
        match normalizeNumber val with
        | some f => (.attr (setValidation a (fun v => { v with Minimum := some f })), [])
        | none => (.attr a, [Err.invalidNumber val])
      else
        (.attr a, [Err.incompatibleType "minimum" (typeName a.typ) "an integer or a number"])
  | n => (n, [])

/-- dsl.Maximum: same shape as Minimum, storing the maximum field. -/
def Maximum (val : Val) : Node → Node × List Err
  | .attr a =>
      if numericOK a.typ then
        match normalizeNumber val with
        | some f => (.attr (setValidation a (fun v => { v with Maximum := some f })), [])
        | none => (.attr a, [Err.invalidNumber val])
      else
        (.attr a, [Err.incompatibleType "maximum" (typeName a.typ) "an integer or a number"])
  | n => (n, [])

/-- dsl.MinLength: on an attribute target of bytes, string, array, map
or unknown type, store the bound verbatim; a known kind outside that
set reports an incompatible-type error.  On any other target the
operation silently does nothing. -/
def MinLength (val : Int) : Node → Node × List Err
  | .attr a =>
      if lengthOK a.typ then
        (.attr (setValidation a (fun v => { v with MinLength := some val })), [])
      else
        (.attr a, [Err.incompatibleType "minimum length" (typeName a.typ) "a string or an array"])
  | n => (n, [])

/-- dsl.MaxLength: same shape as MinLength, storing the maximum-length
field. -/
def MaxLength (val : Int) : Node → Node × List Err
  | .attr a =>
      if lengthOK a.typ then
        (.attr (setValidation a (fun v => { v with MaxLength := some val })), [])
      else
        (.attr a, [Err.incompatibleType "maximum length" (typeName a.typ) "a string or an array"])
  | n => (n, [])

/-- Modelled from the spec: expr.ValidationExpr.AddRequired appends the
names to the accumulated required-name list; deduplication is the
responsibility of the caller and is not performed here. -/
def AddRequired (v : ValidationExpr) (names : List String) : ValidationExpr :=
  { v with Required := v.Required ++ names }

/-- The shared body of Required once the target attribute is resolved:
a known non-object kind reports an incompatible-type error, otherwise
the names are added to the required list. -/
def requiredAttr (names : List String) (a : AttributeExpr) : AttributeExpr × List Err :=
  if objectOK a.typ then
    (setValidation a (fun v => AddRequired v names), [])
  else (a, [Err.incompatibleType "required" (typeName a.typ) "an object"])

/-- dsl.Required: accepts an attribute target or a result type
(unwrapped to its attribute); any other target reports an
incompatible-DSL error (eval.IncompatibleDSL) and changes nothing. -/
def Required (names : List String) : Node → Node × List Err
  | .attr a =>
      let r := requiredAttr names a
      (.attr r.1, r.2)
  | .resultType a =>
      let r := requiredAttr names a
      (.resultType r.1, r.2)
  | n => (n, [Err.incompatibleDSL])

/-- dsl.Meta: dispatches on the current node; a composite expression is
unwrapped to its attribute; attributes, result types, methods,
services and the API root get their metadata record extended; any
other target reports an incompatible-DSL error. -/
def Meta (name : String) (value : List String) : Node → Node × List Err
  | .composite a => (.composite { a with Meta := some (appendMeta a.Meta name value) }, [])
  | .attr a => (.attr { a with Meta := some (appendMeta a.Meta name value) }, [])
  | .resultType a => (.resultType { a with Meta := some (appendMeta a.Meta name value) }, [])
  | .method m => (.method (some (appendMeta m name value)), [])
  | .service m => (.service (some (appendMeta m name value)), [])
  | .api m => (.api (some (appendMeta m name value)), [])
  | .noContext => (.noContext, [Err.incompatibleDSL])

/-- The metadata record of a node, if any. -/
def nodeMeta : Node → Option MetaMap
  | .attr a => a.Meta
  | .resultType a => a.Meta
  | .composite a => a.Meta
  | .method m => m
  | .service m => m
  | .api m => m
  | .noContext => none

/-- The node variants the Meta operation accepts. -/
def isMetaTarget : Node → Bool
  | .noContext => false
  | _ => true

/-- Whether the node is a plain attribute (the only target the seven
simple constraint operations accept). -/
def isAttrNode : Node → Bool
  | .attr _ => true
  | _ => false

/-- Whether the node is a result type (additionally accepted by
Required). -/
def isResultTypeNode : Node → Bool
  | .resultType _ => true
  | _ => false

/-- The validation record reached through a node, if any. -/
def nodeValidation : Node → Option ValidationExpr
  | .attr a => a.Validation
  | .resultType a => a.Validation
  | .composite a => a.Validation
  | _ => none

/-- The required-name list reached through a node (empty when no
validation record exists). -/
def nodeRequired (n : Node) : List String :=
  ((nodeValidation n).getD {}).Required

/-- One constraint operation of dsl/validation.go together with its
arguments, for statements quantifying over all eight operations. -/
inductive ConstraintOp where
  | enumOp (compat : Kind → Val → Bool) (vals : List Val)
  | formatOp (supported : String → Bool) (f : String)
  | patternOp (compileOk : String → Bool) (p : String)
  | minimumOp (v : Val)
  | maximumOp (v : Val)
  | minLengthOp (n : Int)
  | maxLengthOp (n : Int)
  | requiredOp (names : List String)

/-- Run a constraint operation on the current node. -/
def runOp : ConstraintOp → Node → Node × List Err
  | .enumOp compat vals, n => Enum compat vals n
  | .formatOp supported f, n => Format supported f n
  | .patternOp compileOk p, n => Pattern compileOk p n
  | .minimumOp v, n => Minimum v n
  | .maximumOp v, n => Maximum v n
  | .minLengthOp m, n => MinLength m n
  | .maxLengthOp m, n => MaxLength m n
  | .requiredOp names, n => Required names n

/-- Whether the operation is Required, the one constraint operation
with a wider accepted-target set and an explicit incompatible-DSL
report. -/
def ConstraintOp.isRequired : ConstraintOp → Bool
  | .requiredOp _ => true
  | _ => false

end GoaDSL

/-! Helper lemmas shared by the claim theorems. -/

namespace GoaDSL

/-- Extending a key's binding extends exactly the sequence read back
for that key. -/
theorem metaUpdate_lookup (m : MetaMap) (k : String) (vs : List String) :
    metaLookup (metaUpdate m k vs) k = metaLookup m k ++ vs := by
  induction m with
  | nil => simp [metaUpdate, metaLookup]
  | cons hd tl ih =>
      by_cases h : hd.1 = k
      · simp [metaUpdate, metaLookup, h]
      · simp [metaUpdate, metaLookup, h, ih]

/-- setValidation does not touch the type of the attribute. -/
theorem setValidation_typ (a : AttributeExpr) (g : ValidationExpr → ValidationExpr) :
    (setValidation a g).typ = a.typ := rfl

/-- The checking loop of Enum, characterised: starting at index i it
reports exactly one error per incompatible value, carrying the value,
its index and the type name, in index order. -/
theorem enumErrsFrom_eq (compat : Kind → Val → Bool) (k : Kind) :
    ∀ (i : Nat) (vals : List Val),
      enumErrsFrom compat k i vals =
        ((vals.enumFrom i).filter fun p => !(compat k p.2)).map
          fun p => Err.incompatibleValue p.2 p.1 k.name := by
  intro i vals
  induction vals generalizing i with
  | nil => simp [enumErrsFrom, List.enumFrom]
  | cons v rest ih =>
      by_cases h : compat k v
      · simp [enumErrsFrom, List.enumFrom, h, ih]
      · simp [enumErrsFrom, List.enumFrom, h, ih]

/-- A list with some value satisfying the test has a nonempty indexed
filtering. -/
theorem enumFrom_filter_ne_nil (bad : Val → Bool) (vals : List Val)
    (h : vals.any bad = true) :
    ∀ i, (vals.enumFrom i).filter (fun p => bad p.2) ≠ [] := by
  induction vals with
  | nil => simp at h
  | cons v rest ih =>
      intro i
      cases hvb : bad v with
      | true => simp [List.enumFrom, hvb]
      | false =>
          have h2 : rest.any bad = true := by
            rwa [List.any_cons, hvb, Bool.false_or] at h
          have heq : (List.enumFrom i (v :: rest)).filter (fun p => bad p.2)
              = (List.enumFrom (i + 1) rest).filter (fun p => bad p.2) := by
            simp [List.enumFrom, hvb]
          rw [heq]
          exact ih h2 (i + 1)

/-- parseDecimalNum accepts the decimal string 42 exactly. -/
theorem parseDecimalNum_42 : parseDecimalNum ("42") = some (42, 0) := rfl

/-- parseDecimalNum rejects the string not-a-number. -/
theorem parseDecimalNum_nan : parseDecimalNum ("not-a-number") = none := rfl

/-- A Go int converts to the equal number. -/
theorem normalizeNumber_int (n : Int) : normalizeNumber (Val.vInt n) = some (n : Rat) := rfl

/-- A Go float64 converts to itself. -/
theorem normalizeNumber_float64 (q : Rat) : normalizeNumber (Val.vFloat64 q) = some q := rfl

/-- The string 42 normalizes to the number 42. -/
theorem normalizeNumber_str42 : normalizeNumber (Val.vString ("42")) = some 42 := by
  simp [normalizeNumber, parseDecimal, parseDecimalNum_42]

/-- The string not-a-number fails numeric normalization. -/
theorem normalizeNumber_nan : normalizeNumber (Val.vString ("not-a-number")) = none := by
  simp [normalizeNumber, parseDecimal, parseDecimalNum_nan]

/-! Claim theorems. -/

/-- C1, counterexample: Enum called on a method target — not a plain
attribute — reports no error at all (and changes nothing), while the
claim requires an incompatible-target failure to be reported. -/
theorem enum_on_method_silent :
    Enum (fun _ _ => true) [Val.vInt 1] (Node.method none) = (Node.method none, []) := rfl

/-- C1, amended: on a target that is not a plain attribute, each of the
seven simple constraint operations silently leaves the node unchanged
and reports nothing; only Required reports an incompatible-target
(incompatible DSL) failure, on targets that are neither attributes nor
result types, likewise leaving the node unchanged.  Evaluation always
continues (the operations are total). -/
theorem constraint_incompatible_target (op : ConstraintOp) (n : Node)
    (h : isAttrNode n = false) :
    (op.isRequired = false → runOp op n = (n, [])) ∧
    (op.isRequired = true → isResultTypeNode n = false →
      runOp op n = (n, [Err.incompatibleDSL])) := by
  cases op <;> cases n <;>
    simp_all [runOp, Enum, Format, Pattern, Minimum, Maximum, MinLength, MaxLength,
      Required, ConstraintOp.isRequired, isAttrNode, isResultTypeNode]

/-- C1, witness: Minimum on a method target does nothing and reports
nothing; Required on a method target reports the incompatible-DSL
error. -/
theorem constraint_incompatible_target_witness :
    runOp (ConstraintOp.minimumOp (Val.vInt 1)) (Node.method none) = (Node.method none, []) ∧
    runOp (ConstraintOp.requiredOp [("a")]) (Node.method none) =
      (Node.method none, [Err.incompatibleDSL]) :=
  ⟨(constraint_incompatible_target (ConstraintOp.minimumOp (Val.vInt 1))
      (Node.method none) rfl).1 rfl,
   (constraint_incompatible_target (ConstraintOp.requiredOp [("a")])
      (Node.method none) rfl).2 rfl rfl⟩

/-- C2, counterexample: Format with an unsupported tag on an attribute
of unknown type reports the invalid-format error yet still stores the
tag in the Format field, while the claim requires the field not to be
stored. -/
theorem format_invalid_still_stored :
    Format (fun _ => false) ("bogus") (Node.attr {}) =
      (Node.attr { Validation := some { Format := "bogus" } },
        [Err.invalidFormat ("bogus")]) := rfl

/-- C2, amended: Format with a tag outside the supported set reports
an invalid-format error but the call still stores the tag whenever the
target type is nil or of string kind; the Format field is only left
unchanged when the type is known and non-string (which additionally
reports an incompatible-type error). -/
theorem format_unsupported_stores_tag (supported : String → Bool) (f : String)
    (a : AttributeExpr) (hf : supported f = false) (hk : stringOK a.typ = true) :
    Format supported f (Node.attr a) =
      (Node.attr (setValidation a (fun v => { v with Format := f })),
        [Err.invalidFormat f]) := by
  simp [Format, hf, hk]

/-- C2, witness: the amended Format behaviour at a concrete unknown-type
attribute and unsupported tag. -/
theorem format_unsupported_stores_tag_witness :
    Format (fun _ => false) ("bogus") (Node.attr {}) =
      (Node.attr (setValidation {} (fun v => { v with Format := "bogus" })),
        [Err.invalidFormat ("bogus")]) :=
  format_unsupported_stores_tag (fun _ => false) ("bogus") {} rfl rfl

/-- C3: Enum on an attribute of known kind reports exactly one error
per type-incompatible value — carrying the value, its index and the
type name, in index order, with no abort after the first bad value —
and, when at least one value is incompatible, leaves the node (in
particular the stored enum list) entirely unchanged. -/
theorem enum_incompatible_values (compat : Kind → Val → Bool) (k : Kind)
    (vals : List Val) (a : AttributeExpr) (hk : a.typ = some k) :
    (Enum compat vals (Node.attr a)).2 =
      ((vals.enum.filter fun p => !(compat k p.2)).map
        fun p => Err.incompatibleValue p.2 p.1 k.name) ∧
    ((vals.any fun v => !(compat k v)) = true →
      (Enum compat vals (Node.attr a)).1 = Node.attr a) := by
  have herr : enumErrs compat a.typ vals =
      ((vals.enum.filter fun p => !(compat k p.2)).map
        fun p => Err.incompatibleValue p.2 p.1 k.name) := by
    rw [hk]
    exact enumErrsFrom_eq compat k 0 vals
  constructor
  · cases hemp : (enumErrs compat a.typ vals).isEmpty
    · simp only [Enum, hemp, Bool.false_eq_true, if_false]
      exact herr
    · have : enumErrs compat a.typ vals = [] := by
        simpa [List.isEmpty_iff] using hemp
      simp only [Enum, hemp, if_true]
      rw [← herr, this]
  · intro hbad
    have hne : enumErrs compat a.typ vals ≠ [] := by
      rw [herr]
      intro hnil
      exact enumFrom_filter_ne_nil (fun v => !(compat k v)) vals hbad 0
        (by simpa using List.map_eq_nil_iff.mp hnil)
    have hemp : (enumErrs compat a.typ vals).isEmpty = false := by
      simpa [List.isEmpty_iff] using hne
    simp [Enum, hemp]

/-- C3, witness: Enum with values 1, two, 3 under a compatibility test
that accepts only numeric values, on an int-kind attribute, reports the
single error naming the string value two and index 1, and stores
nothing. -/
theorem enum_incompatible_values_witness :
    (Enum (fun _ v => handledNumeric v) [Val.vInt 1, Val.vString ("two"), Val.vInt 3]
        (Node.attr { typ := some Kind.IntKind })).2 =
      [Err.incompatibleValue (Val.vString ("two")) 1 ("int")] ∧
    (Enum (fun _ v => handledNumeric v) [Val.vInt 1, Val.vString ("two"), Val.vInt 3]
        (Node.attr { typ := some Kind.IntKind })).1 =
      Node.attr { typ := some Kind.IntKind } := by
  have h := enum_incompatible_values (fun _ v => handledNumeric v) Kind.IntKind
    [Val.vInt 1, Val.vString ("two"), Val.vInt 3] { typ := some Kind.IntKind } rfl
  refine ⟨?_, h.2 rfl⟩
  rw [h.1]
  rfl

/-- C4: on an attribute whose type is numeric-compatible (nil or of a
numeric kind), Minimum and Maximum normalize the integer 42, the
string 42 and the float 42.0 all to the stored number 42, while the
string not-a-number reports an invalid-number error and leaves the
node, in particular the minimum and maximum fields, unchanged. -/
theorem minmax_normalize (a : AttributeExpr) (h : numericOK a.typ = true) :
    Minimum (Val.vInt 42) (Node.attr a) =
      (Node.attr (setValidation a (fun v => { v with Minimum := some 42 })), []) ∧
    Minimum (Val.vString ("42")) (Node.attr a) =
      (Node.attr (setValidation a (fun v => { v with Minimum := some 42 })), []) ∧
    Minimum (Val.vFloat64 42) (Node.attr a) =
      (Node.attr (setValidation a (fun v => { v with Minimum := some 42 })), []) ∧
    Minimum (Val.vString ("not-a-number")) (Node.attr a) =
      (Node.attr a, [Err.invalidNumber (Val.vString ("not-a-number"))]) ∧
    Maximum (Val.vInt 42) (Node.attr a) =
      (Node.attr (setValidation a (fun v => { v with Maximum := some 42 })), []) ∧
    Maximum (Val.vString ("42")) (Node.attr a) =
      (Node.attr (setValidation a (fun v => { v with Maximum := some 42 })), []) ∧
    Maximum (Val.vFloat64 42) (Node.attr a) =
      (Node.attr (setValidation a (fun v => { v with Maximum := some 42 })), []) ∧
    Maximum (Val.vString ("not-a-number")) (Node.attr a) =
      (Node.attr a, [Err.invalidNumber (Val.vString ("not-a-number"))]) := by
  refine ⟨?_, ?_, ?_, ?_, ?_, ?_, ?_, ?_⟩ <;>
    simp [Minimum, Maximum, h, normalizeNumber_int, normalizeNumber_float64,
      normalizeNumber_str42, normalizeNumber_nan]

/-- C4, witness: the normalizations at a concrete attribute of unknown
(nil) type, for the integer input. -/
theorem minmax_normalize_witness :
    numericOK ({} : AttributeExpr).typ = true ∧
    Minimum (Val.vInt 42) (Node.attr {}) =
      (Node.attr (setValidation {} (fun v => { v with Minimum := some 42 })), []) ∧
    Minimum (Val.vString ("not-a-number")) (Node.attr {}) =
      (Node.attr {}, [Err.invalidNumber (Val.vString ("not-a-number"))]) :=
  ⟨rfl, (minmax_normalize {} rfl).1, (minmax_normalize {} rfl).2.2.2.1⟩

/-- C5: on every accepted metadata target, two Meta calls with the same
key append their value sequences in call order — the stored sequence
for the key afterwards is the previously stored sequence followed by
V1 followed by V2, with no replacement and no deduplication — the
metadata record exists afterwards, and no error is reported. -/
theorem meta_appends (n : Node) (K : String) (V1 V2 : List String)
    (h : isMetaTarget n = true) :
    (Meta K V1 n).2 = [] ∧
    (Meta K V2 (Meta K V1 n).1).2 = [] ∧
    (nodeMeta (Meta K V2 (Meta K V1 n).1).1).isSome = true ∧
    metaLookup ((nodeMeta (Meta K V2 (Meta K V1 n).1).1).getD []) K =
      metaLookup ((nodeMeta n).getD []) K ++ V1 ++ V2 := by
  cases n <;>
    simp_all [Meta, nodeMeta, appendMeta, isMetaTarget, metaUpdate_lookup, List.append_assoc]

/-- C5, witness: two Meta calls on a fresh method node build up the
doubled sequence for the key. -/
theorem meta_appends_witness :
    (Meta ("k") [("x")] (Node.method none)).2 = [] ∧
    (Meta ("k") [("y"), ("x")] (Meta ("k") [("x")] (Node.method none)).1).2 = [] ∧
    (nodeMeta (Meta ("k") [("y"), ("x")]
      (Meta ("k") [("x")] (Node.method none)).1).1).isSome = true ∧
    metaLookup ((nodeMeta (Meta ("k") [("y"), ("x")]
        (Meta ("k") [("x")] (Node.method none)).1).1).getD []) ("k") =
      metaLookup ((nodeMeta (Node.method none)).getD []) ("k") ++ [("x")] ++ [("y"), ("x")] :=
  meta_appends (Node.method none) ("k") [("x")] [("y"), ("x")] rfl

/-- C6: on a plain-attribute target whose type is unknown (nil), every
constraint operation skips the type-compatibility check entirely — no
incompatible-type or incompatible-value error is possible — and the
supplied value still goes through its own validation and
normalization, being stored in the (lazily created) validation record
whenever it passes. -/
theorem nil_type_skips_compat (a : AttributeExpr) (h : a.typ = none) :
    (∀ compat vals, Enum compat vals (Node.attr a) =
      (Node.attr (setValidation a (fun v => { v with Values := some (vals.map convVal) })),
        [])) ∧
    (∀ supported f, Format supported f (Node.attr a) =
      (Node.attr (setValidation a (fun v => { v with Format := f })),
        if supported f then [] else [Err.invalidFormat f])) ∧
    (∀ compileOk p, compileOk p = true → Pattern compileOk p (Node.attr a) =
      (Node.attr (setValidation a (fun v => { v with Pattern := p })), [])) ∧
    (∀ compileOk p, compileOk p = false → Pattern compileOk p (Node.attr a) =
      (Node.attr a, [Err.invalidPattern p])) ∧
    (∀ v f, normalizeNumber v = some f → Minimum v (Node.attr a) =
      (Node.attr (setValidation a (fun w => { w with Minimum := some f })), [])) ∧
    (∀ v, normalizeNumber v = none → Minimum v (Node.attr a) =
      (Node.attr a, [Err.invalidNumber v])) ∧
    (∀ v f, normalizeNumber v = some f → Maximum v (Node.attr a) =
      (Node.attr (setValidation a (fun w => { w with Maximum := some f })), [])) ∧
    (∀ v, normalizeNumber v = none → Maximum v (Node.attr a) =
      (Node.attr a, [Err.invalidNumber v])) ∧
    (∀ m, MinLength m (Node.attr a) =
      (Node.attr (setValidation a (fun v => { v with MinLength := some m })), [])) ∧
    (∀ m, MaxLength m (Node.attr a) =
      (Node.attr (setValidation a (fun v => { v with MaxLength := some m })), [])) ∧
    (∀ names, Required names (Node.attr a) =
      (Node.attr (setValidation a (fun v => AddRequired v names)), [])) := by
  refine ⟨?_, ?_, ?_, ?_, ?_, ?_, ?_, ?_, ?_, ?_, ?_⟩
  · intro compat vals
    simp [Enum, enumErrs, h]
  · intro supported f
    simp [Format, stringOK, h]
  · intro compileOk p hc
    simp [Pattern, stringOK, h, hc]
  · intro compileOk p hc
    simp [Pattern, stringOK, h, hc]
  · intro v f hf
    simp [Minimum, numericOK, h, hf]
  · intro v hf
    simp [Minimum, numericOK, h, hf]
  · intro v f hf
    simp [Maximum, numericOK, h, hf]
  · intro v hf
    simp [Maximum, numericOK, h, hf]
  · intro m
    simp [MinLength, lengthOK, h]
  · intro m
    simp [MaxLength, lengthOK, h]
  · intro names
    simp [Required, requiredAttr, objectOK, h]

/-- C6, witness: on a fresh nil-typed attribute, Enum stores its values
even under a compatibility test that rejects everything, and MinLength
stores its bound. -/
theorem nil_type_skips_compat_witness :
    Enum (fun _ _ => false) [Val.vInt 1] (Node.attr {}) =
      (Node.attr (setValidation {} (fun v => { v with Values := some [Val.vInt 1] })), []) ∧
    MinLength 3 (Node.attr {}) =
      (Node.attr (setValidation {} (fun v => { v with MinLength := some 3 })), []) :=
  ⟨(nil_type_skips_compat {} rfl).1 (fun _ _ => false) [Val.vInt 1],
   (nil_type_skips_compat {} rfl).2.2.2.2.2.2.2.2.1 3⟩

/-- C7: Pattern on an attribute of string or unknown type stores the
expression string unchanged when it compiles, and reports an error and
leaves the node unchanged (so the pattern field stays absent) when
compilation fails. -/
theorem pattern_compile_gate (compileOk : String → Bool) (p : String) (a : AttributeExpr)
    (hk : stringOK a.typ = true) :
    (compileOk p = true → Pattern compileOk p (Node.attr a) =
      (Node.attr (setValidation a (fun v => { v with Pattern := p })), [])) ∧
    (compileOk p = false → Pattern compileOk p (Node.attr a) =
      (Node.attr a, [Err.invalidPattern p])) := by
  constructor <;> intro hc <;> simp [Pattern, hk, hc]

/-- C7, witness: a non-compiling expression (an unbalanced bracket,
under a compiler oracle rejecting it) on a fresh attribute reports the
error and stores nothing; a compiling expression is stored. -/
theorem pattern_compile_gate_witness :
    Pattern (fun _ => false) ("[") (Node.attr {}) =
      (Node.attr {}, [Err.invalidPattern ("[")]) ∧
    Pattern (fun _ => true) ("a+") (Node.attr {}) =
      (Node.attr (setValidation {} (fun v => { v with Pattern := "a+" })), []) :=
  ⟨(pattern_compile_gate (fun _ => false) ("[") {} rfl).2 rfl,
   (pattern_compile_gate (fun _ => true) ("a+") {} rfl).1 rfl⟩

/-- C8: Required called with the list [a] and then the list [b, a] on
an attribute of object or unknown kind accumulates the required-name
list by plain appending, so a record that started empty ends up
holding a, b, a — the name a twice and b once; Required on an
attribute of any known non-object kind reports an incompatible-type
error and leaves the node unchanged.  The accumulation step
AddRequired lives outside the translated sources and is modelled from
the spec as appending without deduplication. -/
theorem required_accumulates (a : AttributeExpr) :
    (objectOK a.typ = true →
      nodeRequired (Required [("b"), ("a")] (Required [("a")] (Node.attr a)).1).1 =
        nodeRequired (Node.attr a) ++ [("a")] ++ [("b"), ("a")]) ∧
    (objectOK a.typ = true → nodeRequired (Node.attr a) = [] →
      nodeRequired (Required [("b"), ("a")] (Required [("a")] (Node.attr a)).1).1 =
        [("a"), ("b"), ("a")]) ∧
    (∀ k names, a.typ = some k → k ≠ Kind.ObjectKind →
      Required names (Node.attr a) =
        (Node.attr a, [Err.incompatibleType ("required") k.name ("an object")])) := by
  have h1 : objectOK a.typ = true →
      nodeRequired (Required [("b"), ("a")] (Required [("a")] (Node.attr a)).1).1 =
        nodeRequired (Node.attr a) ++ [("a")] ++ [("b"), ("a")] := by
    intro h
    simp [Required, requiredAttr, h, AddRequired, setValidation, nodeRequired, nodeValidation]
  refine ⟨h1, ?_, ?_⟩
  · intro h hemp
    rw [h1 h, hemp]
    rfl
  · intro k names hk hne
    have hno : objectOK (some k) = false := by
      simp [objectOK, hne]
    simp [Required, requiredAttr, hk, hno, typeName]

/-- C8, witness: the double call on a fresh nil-typed attribute yields
the list a, b, a (a twice, b once); the call on a string-kind attribute
reports the incompatible-type error and changes nothing. -/
theorem required_accumulates_witness :
    nodeRequired (Required [("b"), ("a")] (Required [("a")] (Node.attr {})).1).1 =
      [("a"), ("b"), ("a")] ∧
    Required [("a")] (Node.attr { typ := some Kind.StringKind }) =
      (Node.attr { typ := some Kind.StringKind },
        [Err.incompatibleType ("required") ("string") ("an object")]) :=
  ⟨(required_accumulates {}).2.1 rfl rfl,
   (required_accumulates { typ := some Kind.StringKind }).2.2 Kind.StringKind
      [("a")] rfl (by decide)⟩

/-- C9, counterexample: a successful Enum call supplied with a DSL map
literal stores the converted plain map, not the supplied value: the
stored list is not the supplied list, refuting that values are stored
with no conversion applied. -/
theorem enum_converts_mapval :
    (Enum (fun _ _ => true) [Val.vMapVal []] (Node.attr {})).2 = [] ∧
    (Enum (fun _ _ => true) [Val.vMapVal []] (Node.attr {})).1 =
      Node.attr { Validation := some { Values := some [Val.vMap []] } } ∧
    ([Val.vMap []] : List Val) ≠ [Val.vMapVal []] :=
  ⟨rfl, rfl, by simp⟩

/-- C9, amended: for every successful Enum call the stored list is the
supplied list with each DSL map or array literal converted to its
plain map or slice form, in the order given; every value that is not
one of those two literal forms is stored unmodified. -/
theorem enum_stores_converted (compat : Kind → Val → Bool) (vals : List Val)
    (a : AttributeExpr) (hok : (Enum compat vals (Node.attr a)).2 = []) :
    (Enum compat vals (Node.attr a)).1 =
      Node.attr (setValidation a (fun v => { v with Values := some (vals.map convVal) })) ∧
    (∀ v, (∀ es, v ≠ Val.vMapVal es) → (∀ es, v ≠ Val.vArrayVal es) → convVal v = v) := by
  constructor
  · cases hemp : (enumErrs compat a.typ vals).isEmpty
    · exfalso
      simp only [Enum, hemp, Bool.false_eq_true, if_false] at hok
      rw [hok] at hemp
      simp at hemp
    · simp [Enum, hemp]
  · intro v h1 h2
    cases v <;>
      first
        | rfl
        | exact absurd rfl (h1 _)
        | exact absurd rfl (h2 _)

/-- C9, amended, witness: a successful call on a plain value stores it
as is. -/
theorem enum_stores_converted_witness :
    (Enum (fun _ _ => true) [Val.vInt 1] (Node.attr {})).1 =
      Node.attr (setValidation {} (fun v => { v with Values := some [Val.vInt 1] })) :=
  (enum_stores_converted (fun _ _ => true) [Val.vInt 1] {} rfl).1

/-- C10: Minimum and Maximum on a numeric-compatible target, given an
argument that is neither one of the handled numeric values nor a
string (for example a boolean or nil), report an invalid-number error
and leave the node — in particular the minimum and maximum fields —
unchanged. -/
theorem minmax_invalid_value (a : AttributeExpr) (v : Val)
    (hk : numericOK a.typ = true) (h1 : handledNumeric v = false)
    (h2 : isStringVal v = false) :
    Minimum v (Node.attr a) = (Node.attr a, [Err.invalidNumber v]) ∧
    Maximum v (Node.attr a) = (Node.attr a, [Err.invalidNumber v]) := by
  have hn : normalizeNumber v = none := by
    cases v <;> simp_all [handledNumeric, isStringVal, normalizeNumber]
  constructor <;> simp [Minimum, Maximum, hk, hn]

/-- C10, witness: a boolean argument to Minimum and a nil argument to
Maximum on a fresh attribute both report the invalid-number error and
change nothing. -/
theorem minmax_invalid_value_witness :
    Minimum (Val.vBool true) (Node.attr {}) =
      (Node.attr {}, [Err.invalidNumber (Val.vBool true)]) ∧
    Maximum Val.vNil (Node.attr {}) =
      (Node.attr {}, [Err.invalidNumber Val.vNil]) :=
  ⟨(minmax_invalid_value {} (Val.vBool true) rfl rfl rfl).1,
   (minmax_invalid_value {} Val.vNil rfl rfl rfl).2⟩

end GoaDSL
